import Mathlib

/-!
Verification of the cedit buffer-cursor-viewport engine.

The definitions below are a shallow embedding of the editor engine in
`src/curses/claude.py` (class `TextEditor`), together with the
`delete_character` method of the parallel prototype in
`src/textual/main.py`.  A text line is a `List Char`; Python string
slicing `s[a:b]` becomes `(l.take b).drop a`, `s[a:]` becomes `l.drop a`,
and `s[:b]` becomes `l.take b`.  Machine-level I/O (the curses screen,
pyperclip, the file system) is external to the engine: its outcomes enter
the model as explicit parameters (the decoded key, the clipboard payload,
the result of a file read, the success of a file write).
-/

namespace Cedit

/-- A text line, as a sequence of single-width code units. -/
abbrev Line := List Char

/-- Python `list.insert(i, x)`: inserts before index `i`; an index at or
past the end appends.  `take i ++ x :: drop i` has exactly this
behaviour for every `i`. -/
def pyInsert (c : List α) (i : Nat) (x : α) : List α :=
  c.take i ++ x :: c.drop i

/-- Python `text.split('\n')` on a character list: always returns at
least one part, one more part per newline character. -/
def splitNL : Line → List Line
  | [] => [[]]
  | c :: rest =>
    match splitNL rest with
    | [] => [[c]]
    | l :: ls => if c = '\n' then [] :: l :: ls else (c :: l) :: ls

/-- Python `'\n'.join(lines)` on character lists. -/
def joinNL : List Line → Line
  | [] => []
  | [l] => l
  | l :: m :: ls => l ++ '\n' :: joinNL (m :: ls)

/-- The mutable state of `TextEditor` (`src/curses/claude.py`).  The
`filename` field uses `""` for Python `None`: the source only ever tests
the field for truthiness, and the empty string and `None` are both
falsy. -/
structure State where
  content : List Line
  cursor_y : Nat
  cursor_x : Nat
  scroll_y : Nat
  scroll_x : Nat
  height : Nat
  width : Nat
  selection_start : Option (Nat × Nat)
  filename : String
  message : String
  message_timeout : Nat
deriving DecidableEq, Repr

/-- `TextEditor.set_message` (claude.py:68). -/
def set_message (m : String) (s : State) : State :=
  { s with message := m, message_timeout := 50 }

/-- Outcome of reading a file, as seen by `load_file`: a successful read
yielding the `splitlines()` result, a `FileNotFoundError`, or any other
exception with its message. -/
inductive FileRead where
  | ok (ls : List Line)
  | missing
  | failed (err : String)
deriving DecidableEq, Repr

/-- `TextEditor.load_file` (claude.py:38-49).  Replaces the document with
the lines read from the file, falling back to one empty line when the
read yields nothing or fails.  Note that the source does not touch the
cursor or the scroll offsets here. -/
def load_file (fname : String) (r : FileRead) (s : State) : State :=
  match r with
  | .ok ls => { s with content := if ls = [] then [[]] else ls }
  | .missing => set_message ("New file: " ++ fname) { s with content := [[]] }
  | .failed e => set_message ("Error loading file: " ++ e) { s with content := [[]] }

/-- `TextEditor.save_file` (claude.py:51-66).  `override` is the optional
argument (`""` for `None`), `writeOk`/`err` give the outcome of the
external write call.  Besides the new state we return the write attempt
that was issued: `some (path, payload)` when `open(...).write` was
reached, `none` when nothing was written. -/
def save_file (override : String) (writeOk : Bool) (err : String) (s : State) :
    State × Option (String × Line) :=
  let s := if override ≠ "" then { s with filename := override } else s
  if s.filename = "" then (set_message "No filename specified" s, none)
  else if writeOk then
    (set_message ("Saved: " ++ s.filename) s, some (s.filename, joinNL s.content))
  else
    (set_message ("Error saving file: " ++ err) s, some (s.filename, joinNL s.content))

/-- `TextEditor.new_file` (claude.py:72-79). -/
def new_file (s : State) : State :=
  set_message "New file"
    { s with filename := "", content := [[]],
             cursor_y := 0, cursor_x := 0, scroll_y := 0, scroll_x := 0 }

/-- `TextEditor.insert_text` (claude.py:186-189). -/
def insert_text (t : Line) (s : State) : State :=
  let cur := s.content.getD s.cursor_y []
  { s with
    content := s.content.set s.cursor_y (cur.take s.cursor_x ++ t ++ cur.drop s.cursor_x),
    cursor_x := s.cursor_x + t.length }

/-- `TextEditor.update_scroll` (claude.py:216-227).  The comparisons and
the assignment are carried out over `Int`, exactly as Python does; the
assigned values are nonnegative whenever the branch is taken, so the
final `toNat` is lossless. -/
def update_scroll (s : State) : State :=
  let sy : Nat :=
    if (s.cursor_y : Int) < s.scroll_y then s.cursor_y
    else if (s.scroll_y : Int) + s.height - 2 ≤ s.cursor_y then
      ((s.cursor_y : Int) - s.height + 3).toNat
    else s.scroll_y
  let sx : Nat :=
    if (s.cursor_x : Int) < s.scroll_x then s.cursor_x
    else if (s.scroll_x : Int) + s.width - 2 ≤ s.cursor_x then
      ((s.cursor_x : Int) - s.width + 3).toNat
    else s.scroll_x
  { s with scroll_y := sy, scroll_x := sx }

/-- Vertical phase of `TextEditor.move_cursor` (claude.py:192-197). -/
def move_vertical (dy : Int) (s : State) : State :=
  if dy ≠ 0 then
    let ny : Nat := (max 0 (min ((s.content.length : Int) - 1) (s.cursor_y + dy))).toNat
    if ny ≠ s.cursor_y then
      { s with cursor_y := ny,
               cursor_x := min s.cursor_x (s.content.getD ny []).length }
    else s
  else s

/-- Horizontal phase of `TextEditor.move_cursor` (claude.py:199-211). -/
def move_horizontal (dx : Int) (s : State) : State :=
  if dx ≠ 0 then
    if dx < 0 ∧ s.cursor_x = 0 ∧ 0 < s.cursor_y then
      { s with cursor_y := s.cursor_y - 1,
               cursor_x := (s.content.getD (s.cursor_y - 1) []).length }
    else if 0 < dx ∧ s.cursor_x = (s.content.getD s.cursor_y []).length ∧
              s.cursor_y < s.content.length - 1 then
      { s with cursor_y := s.cursor_y + 1, cursor_x := 0 }
    else
      { s with cursor_x :=
          (max 0 (min ((s.content.getD s.cursor_y []).length : Int) (s.cursor_x + dx))).toNat }
  else s

/-- `TextEditor.move_cursor` (claude.py:191-214): vertical motion, then
horizontal motion, then the scroll recomputation. -/
def move_cursor (dy dx : Int) (s : State) : State :=
  update_scroll (move_horizontal dx (move_vertical dy s))

/-- `TextEditor.get_selected_text` (claude.py:229-252): normalizes the
anchor/cursor pair so the start does not exceed the end, then walks the
covered rows collecting the covered slices and joins them with
newlines. -/
def get_selected_text (s : State) : Line :=
  match s.selection_start with
  | none => []
  | some (ay, ax) =>
    let n : Nat × Nat × Nat × Nat :=
      if s.cursor_y < ay ∨ (ay = s.cursor_y ∧ s.cursor_x < ax) then
        (s.cursor_y, s.cursor_x, ay, ax)
      else (ay, ax, s.cursor_y, s.cursor_x)
    match n with
    | (sy, sx, ey, ex) =>
      joinNL ((List.range' sy (ey + 1 - sy)).map (fun y =>
        let line := s.content.getD y []
        if sy = ey then (line.take ex).drop sx
        else if y = sy then line.drop sx
        else if y = ey then line.take ex
        else line))

/-- `TextEditor.copy_text` (claude.py:254-261).  `ok`/`err` give the
outcome of the external `pyperclip.copy` call; the returned option is
the payload actually delivered to the system clipboard. -/
def copy_text (ok : Bool) (err : String) (s : State) : State × Option Line :=
  let t := get_selected_text s
  if t = [] then (s, none)
  else if ok then (set_message "Text copied to clipboard" s, some t)
  else (set_message ("Failed to copy: " ++ err) s, none)

/-- Inner loop of `TextEditor.paste_text` (claude.py:280-281): insert the
middle parts one by one at consecutive indices below the cursor row. -/
def insertLoop (c : List Line) (pos : Nat) : List Line → List Line
  | [] => c
  | l :: rest => insertLoop (pyInsert c pos l) (pos + 1) rest

/-- `TextEditor.paste_text` (claude.py:263-291), given the payload
returned by the external `pyperclip.paste` call. -/
def paste_text (p : Line) (s : State) : State :=
  if p = [] then s
  else
    let parts := splitNL p
    if parts.length = 1 then
      set_message "Text pasted from clipboard" (insert_text p s)
    else
      let cur := s.content.getD s.cursor_y []
      let first_part := cur.take s.cursor_x
      let last_part := cur.drop s.cursor_x
      let c1 := s.content.set s.cursor_y (first_part ++ parts.headI)
      let c2 := insertLoop c1 (s.cursor_y + 1) ((parts.drop 1).dropLast)
      let c3 := pyInsert c2 (s.cursor_y + parts.length - 1) (parts.getLastI ++ last_part)
      set_message "Text pasted from clipboard"
        { s with content := c3,
                 cursor_y := s.cursor_y + parts.length - 1,
                 cursor_x := parts.getLastI.length }

/-- A decoded input event as dispatched by `TextEditor.handle_input`
(claude.py:101-184).  Constructors that trigger external I/O carry the
outcome of that I/O: `ctrlS` the success of the write, `ctrlO` the
prompt result and the file read outcome, `ctrlC` the success of the
clipboard write, `ctrlV` the clipboard contents.  `other` stands for any
key code matching none of the handled branches. -/
inductive Key where
  | resize (h w : Nat)
  | up | down | left | right
  | home | endKey | pageUp | pageDown
  | enter | tab | backspace | delete
  | shiftUp | shiftDown
  | ctrlS (writeOk : Bool) (err : String)
  | ctrlO (fname : String) (r : FileRead)
  | ctrlN
  | ctrlC (ok : Bool) (err : String)
  | ctrlV (payload : Line)
  | escape
  | printable (c : Char)
  | other
deriving DecidableEq, Repr

/-- `TextEditor.handle_input` (claude.py:101-184). -/
def handle_input (k : Key) (s : State) : State :=
  match k with
  | .resize h w => { s with height := h, width := w }
  | .up => move_cursor (-1) 0 s
  | .down => move_cursor 1 0 s
  | .left => move_cursor 0 (-1) s
  | .right => move_cursor 0 1 s
  | .home => { s with cursor_x := 0 }
  | .endKey => { s with cursor_x := (s.content.getD s.cursor_y []).length }
  | .pageUp => move_cursor (-(s.height : Int) + 2) 0 s
  | .pageDown => move_cursor ((s.height : Int) - 2) 0 s
  | .enter =>
    let cur := s.content.getD s.cursor_y []
    { s with
      content := pyInsert (s.content.set s.cursor_y (cur.take s.cursor_x))
                   (s.cursor_y + 1) (cur.drop s.cursor_x),
      cursor_y := s.cursor_y + 1, cursor_x := 0 }
  | .tab => insert_text [' ', ' ', ' ', ' '] s
  | .backspace =>
    if 0 < s.cursor_x then
      let cur := s.content.getD s.cursor_y []
      { s with
        content := s.content.set s.cursor_y (cur.take (s.cursor_x - 1) ++ cur.drop s.cursor_x),
        cursor_x := s.cursor_x - 1 }
    else if 0 < s.cursor_y then
      let prev := s.content.getD (s.cursor_y - 1) []
      { s with
        cursor_x := prev.length,
        content := (s.content.set (s.cursor_y - 1)
                     (prev ++ s.content.getD s.cursor_y [])).eraseIdx s.cursor_y,
        cursor_y := s.cursor_y - 1 }
    else s
  | .delete =>
    let cur := s.content.getD s.cursor_y []
    if s.cursor_x < cur.length then
      { s with content := s.content.set s.cursor_y (cur.take s.cursor_x ++ cur.drop (s.cursor_x + 1)) }
    else if s.cursor_y < s.content.length - 1 then
      { s with content := (s.content.set s.cursor_y
          (cur ++ s.content.getD (s.cursor_y + 1) [])).eraseIdx (s.cursor_y + 1) }
    else s
  | .shiftUp =>
    let s := if s.selection_start = none then
               { s with selection_start := some (s.cursor_y, s.cursor_x) }
             else s
    move_cursor (-1) 0 s
  | .shiftDown =>
    let s := if s.selection_start = none then
               { s with selection_start := some (s.cursor_y, s.cursor_x) }
             else s
    move_cursor 1 0 s
  | .ctrlS ok err => (save_file "" ok err s).1
  | .ctrlO fname r => if fname ≠ "" then load_file fname r { s with filename := fname } else s
  | .ctrlN => new_file s
  | .ctrlC ok err => (copy_text ok err s).1
  | .ctrlV p => paste_text p s
  | .escape => { s with selection_start := none }
  | .printable c => insert_text [c] s
  | .other => s

/-- `Editor.delete_character` of the textual prototype
(src/textual/main.py:84-98), restricted to the fields it touches:
`(lines, cursor_row, cursor_col)`.  In the join branch the source pops
the current row, decrements the row, and then sets
`cursor_col = len(self.lines[self.cursor_col])` — it indexes the
(already popped) line list by the column, not by the row. -/
def textualDeleteCharacter (lines : List Line) (row col : Nat) :
    List Line × Nat × Nat :=
  if 0 < col then
    let cur := lines.getD row []
    (lines.set row (cur.take (col - 1) ++ cur.drop col), row, col - 1)
  else if 0 < row then
    let cur := lines.getD row []
    let lines1 := lines.eraseIdx row
    let row1 := row - 1
    let col1 := (lines1.getD col []).length
    (lines1.set row1 (lines1.getD row1 [] ++ cur), row1, col1)
  else
    (lines, row, col)

/-- Spec section 4.4, the copy payload, written from the words of the
specification: for a single-row span the literal substring
`line[start_col:end_col]`; for a multi-row span `first_line[start_col:]`,
each fully-included middle line verbatim, then `last_line[:end_col]`,
joined with line separators.  Used as the reference against which the
extraction in `get_selected_text` is checked. -/
def specCopy (c : List Line) (sy sx ey ex : Nat) : Line :=
  if sy = ey then ((c.getD sy []).take ex).drop sx
  else joinNL ([(c.getD sy []).drop sx]
                ++ (c.drop (sy + 1)).take (ey - sy - 1)
                ++ [(c.getD ey []).take ex])

/-- Splits the newline-joined rendering of a document at the character
offset corresponding to document position `(y, x)`: everything strictly
before the position, and everything from the position on. -/
def splitAtPos : List Line → Nat → Nat → Line × Line
  | [], _, _ => ([], [])
  | l :: ls, 0, x =>
    (l.take x, l.drop x ++ match ls with | [] => [] | _ :: _ => '\n' :: joinNL ls)
  | l :: ls, y + 1, x =>
    let p := splitAtPos ls y x
    (l ++ '\n' :: p.1, p.2)

/-- The selection-extending inputs: the shifted directional keys of
claude.py:156-163. -/
def extendKey : Key → Bool
  | .shiftUp => true
  | .shiftDown => true
  | _ => false

/-- The explicit selection-cancel input: Escape (claude.py:179-180). -/
def cancelKey : Key → Bool
  | .escape => true
  | _ => false

/-- An editor state over a given document and cursor, with a 24x80
terminal and everything else at its initial value; used to build the
concrete scenarios below. -/
def mkState (c : List Line) (y x : Nat) : State :=
  { content := c, cursor_y := y, cursor_x := x, scroll_y := 0, scroll_x := 0,
    height := 24, width := 80, selection_start := none, filename := "",
    message := "", message_timeout := 0 }

/-! ### Basic facts about the string helpers -/

theorem splitNL_ne_nil (p : Line) : splitNL p ≠ [] := by
  cases p with
  | nil => simp [splitNL]
  | cons c rest =>
    simp only [splitNL]
    cases h : splitNL rest with
    | nil => simp
    | cons l ls =>
      by_cases hc : c = '\n' <;> simp [hc]

theorem joinNL_cons_ne (x : Line) (R : List Line) (h : R ≠ []) :
    joinNL (x :: R) = x ++ '\n' :: joinNL R := by
  cases R with
  | nil => exact absurd rfl h
  | cons m ls => rfl

theorem joinNL_splitNL (p : Line) : joinNL (splitNL p) = p := by
  induction p with
  | nil => rfl
  | cons c rest ih =>
    simp only [splitNL]
    cases h : splitNL rest with
    | nil => exact absurd h (splitNL_ne_nil rest)
    | cons l ls =>
      rw [h] at ih
      dsimp only
      by_cases hc : c = '\n'
      · subst hc
        rw [if_pos rfl, joinNL_cons_ne _ _ (List.cons_ne_nil _ _)]
        simpa using ih
      · rw [if_neg hc]
        cases ls with
        | nil =>
          simp only [joinNL] at ih ⊢
          rw [ih]
        | cons m ms =>
          simp only [joinNL] at ih ⊢
          rw [← ih]
          simp

theorem splitNL_singleton {p q : Line} (h : splitNL p = [q]) : q = p := by
  have := joinNL_splitNL p
  rw [h] at this
  simpa [joinNL] using this

/-! ### Python list primitives: take/drop decompositions -/

theorem pyInsert_ne_nil (c : List α) (i : Nat) (x : α) : pyInsert c i x ≠ [] := by
  simp [pyInsert]

theorem take_pyInsert (c : List α) (i : Nat) (x : α) :
    (pyInsert c i x).take (i + 1) = c.take i ++ [x] := by
  simp only [pyInsert]
  rw [List.take_append_eq_append_take]
  have hlen : (c.take i).length ≤ i := by simp
  rw [List.take_of_length_le (by omega)]
  have h1 : i + 1 - (c.take i).length ≥ 1 := by omega
  cases hk : i + 1 - (c.take i).length with
  | zero => omega
  | succ k =>
    simp only [List.take_succ_cons]
    congr 1
    have : c.drop i = [] ∨ (c.take i).length = i := by
      by_cases hi : i ≤ c.length
      · right; simp [hi]
      · left; simp [List.drop_eq_nil_iff]; omega
    rcases this with h | h
    · simp [h]
    · have : k = 0 := by omega
      simp [this]

theorem drop_pyInsert (c : List α) (i : Nat) (x : α) :
    (pyInsert c i x).drop (i + 1) = c.drop i := by
  simp only [pyInsert]
  rw [List.drop_append_eq_append_drop]
  have hlen : (c.take i).length ≤ i := by simp
  rw [List.drop_of_length_le (by omega)]
  have h1 : i + 1 - (c.take i).length ≥ 1 := by omega
  cases hk : i + 1 - (c.take i).length with
  | zero => omega
  | succ k =>
    simp only [List.drop_succ_cons, List.nil_append]
    have : c.drop i = [] ∨ (c.take i).length = i := by
      by_cases hi : i ≤ c.length
      · right; simp [hi]
      · left; simp [List.drop_eq_nil_iff]; omega
    rcases this with h | h
    · simp [h]
    · have hk0 : k = 0 := by omega
      simp [hk0]

theorem insertLoop_eq (ls : List Line) (c : List Line) (pos : Nat) :
    insertLoop c pos ls = c.take pos ++ ls ++ c.drop pos := by
  induction ls generalizing c pos with
  | nil => simp [insertLoop]
  | cons l rest ih =>
    rw [insertLoop, ih, take_pyInsert, drop_pyInsert]
    simp

theorem set_eq_take_cons_drop {c : List α} {y : Nat} (h : y < c.length) (v : α) :
    c.set y v = c.take y ++ v :: c.drop (y + 1) := by
  rw [List.set_eq_take_append_cons_drop, if_pos h]

theorem take_getD_drop {c : List Line} {y : Nat} (h : y < c.length) :
    c.take y ++ c.getD y [] :: c.drop (y + 1) = c := by
  rw [List.getD_eq_getElem c [] h]
  conv_rhs => rw [← List.take_append_drop y c, List.drop_eq_getElem_cons h]

theorem take_append_cons_self (A B : List α) (x : α) :
    (A ++ x :: B).take (A.length + 1) = A ++ [x] := by
  rw [List.take_append_eq_append_take]
  simp

theorem drop_append_cons_self (A B : List α) (x : α) :
    (A ++ x :: B).drop (A.length + 1) = B := by
  rw [List.drop_append_eq_append_drop]
  simp

theorem take_len_succ (A B : List α) (x : α) (n : Nat) (h : A.length = n) :
    (A ++ x :: B).take (n + 1) = A ++ [x] := by
  subst h; exact take_append_cons_self A B x

theorem drop_len_succ (A B : List α) (x : α) (n : Nat) (h : A.length = n) :
    (A ++ x :: B).drop (n + 1) = B := by
  subst h; exact drop_append_cons_self A B x

theorem pyInsert_at_len (A B : List α) (x : α) (n : Nat) (h : A.length = n) :
    pyInsert (A ++ B) n x = A ++ x :: B := by
  subst h; simp [pyInsert]

/-- The multi-line branch of `paste_text`, reduced from the sequential
insertions of the source to one take/drop decomposition of the
document. -/
theorem paste_doc_eq (c : List Line) (y : Nat) (hy : y < c.length) (v w : Line)
    (mid : List Line) :
    pyInsert (insertLoop (c.set y v) (y + 1) mid) (y + mid.length + 1) w =
      c.take y ++ (v :: (mid ++ [w])) ++ c.drop (y + 1) := by
  have hA : (c.take y).length = y := by simp [List.length_take]; omega
  rw [insertLoop_eq, set_eq_take_cons_drop hy v,
      take_len_succ _ _ _ _ hA, drop_len_succ _ _ _ _ hA]
  have hA2 : ((c.take y ++ [v]) ++ mid).length = y + mid.length + 1 := by
    simp [hA]; omega
  rw [show (c.take y ++ [v]) ++ mid ++ c.drop (y + 1)
        = ((c.take y ++ [v]) ++ mid) ++ c.drop (y + 1) by simp,
      pyInsert_at_len _ _ _ _ hA2]
  simp

/-- Shape of the document and cursor after a multi-line paste
(claude.py:270-288): the row is replaced by its head glued to the first
part, the middle parts become new rows, the last part picks up the tail
of the row, and the cursor lands at the end of the last part. -/
theorem paste_text_content_eq (s : State) (p p0 plast : Line) (mid : List Line)
    (hy : s.cursor_y < s.content.length)
    (hp : splitNL p = p0 :: (mid ++ [plast])) :
    (paste_text p s).content =
      s.content.take s.cursor_y
        ++ (((s.content.getD s.cursor_y []).take s.cursor_x ++ p0)
              :: (mid ++ [plast ++ (s.content.getD s.cursor_y []).drop s.cursor_x]))
        ++ s.content.drop (s.cursor_y + 1) ∧
    (paste_text p s).cursor_y = s.cursor_y + mid.length + 1 ∧
    (paste_text p s).cursor_x = plast.length := by
  have hpne : p ≠ [] := by
    intro h
    subst h
    simp [splitNL] at hp
  have hlen : (splitNL p).length = mid.length + 2 := by rw [hp]; simp
  have hne1 : ¬(splitNL p).length = 1 := by omega
  have hhead : (splitNL p).headI = p0 := by rw [hp]; rfl
  have hlast : (splitNL p).getLastI = plast := by
    rw [hp, show p0 :: (mid ++ [plast]) = (p0 :: mid) ++ [plast] by simp,
        List.getLastI_eq_getLast?, List.getLast?_concat]
  have hmid : ((splitNL p).drop 1).dropLast = mid := by
    rw [hp]
    simp
  have hpos : s.cursor_y + (splitNL p).length - 1 = s.cursor_y + mid.length + 1 := by
    omega
  unfold paste_text
  rw [if_neg hpne, if_neg hne1, hhead, hlast, hmid, hpos]
  refine ⟨?_, ?_, ?_⟩ <;> simp only [set_message]
  exact paste_doc_eq _ _ hy _ _ _

/-! ### Frame lemmas: which fields each operation leaves untouched -/

theorem set_message_fields (m : String) (s : State) :
    (set_message m s).content = s.content ∧
    (set_message m s).cursor_y = s.cursor_y ∧
    (set_message m s).cursor_x = s.cursor_x ∧
    (set_message m s).scroll_y = s.scroll_y ∧
    (set_message m s).scroll_x = s.scroll_x ∧
    (set_message m s).selection_start = s.selection_start ∧
    (set_message m s).height = s.height ∧
    (set_message m s).width = s.width := by
  simp [set_message]

theorem copy_text_fst_fields (ok : Bool) (err : String) (s : State) :
    ((copy_text ok err s).1).content = s.content ∧
    ((copy_text ok err s).1).cursor_y = s.cursor_y ∧
    ((copy_text ok err s).1).cursor_x = s.cursor_x ∧
    ((copy_text ok err s).1).scroll_y = s.scroll_y ∧
    ((copy_text ok err s).1).scroll_x = s.scroll_x ∧
    ((copy_text ok err s).1).selection_start = s.selection_start := by
  unfold copy_text
  by_cases h : get_selected_text s = [] <;> cases ok <;> simp [h, set_message]

theorem update_scroll_fields (s : State) :
    (update_scroll s).content = s.content ∧
    (update_scroll s).cursor_y = s.cursor_y ∧
    (update_scroll s).cursor_x = s.cursor_x ∧
    (update_scroll s).selection_start = s.selection_start ∧
    (update_scroll s).height = s.height ∧
    (update_scroll s).width = s.width := by
  simp [update_scroll]

theorem move_vertical_fields (dy : Int) (s : State) :
    (move_vertical dy s).content = s.content ∧
    (move_vertical dy s).selection_start = s.selection_start ∧
    (move_vertical dy s).scroll_y = s.scroll_y ∧
    (move_vertical dy s).scroll_x = s.scroll_x ∧
    (move_vertical dy s).height = s.height ∧
    (move_vertical dy s).width = s.width := by
  unfold move_vertical
  dsimp only
  split_ifs <;> simp

theorem move_horizontal_fields (dx : Int) (s : State) :
    (move_horizontal dx s).content = s.content ∧
    (move_horizontal dx s).selection_start = s.selection_start ∧
    (move_horizontal dx s).scroll_y = s.scroll_y ∧
    (move_horizontal dx s).scroll_x = s.scroll_x ∧
    (move_horizontal dx s).height = s.height ∧
    (move_horizontal dx s).width = s.width := by
  unfold move_horizontal
  split_ifs <;> simp

theorem move_cursor_fields (dy dx : Int) (s : State) :
    (move_cursor dy dx s).content = s.content ∧
    (move_cursor dy dx s).selection_start = s.selection_start ∧
    (move_cursor dy dx s).height = s.height ∧
    (move_cursor dy dx s).width = s.width := by
  unfold move_cursor
  have h1 := move_vertical_fields dy s
  have h2 := move_horizontal_fields dx (move_vertical dy s)
  have h3 := update_scroll_fields (move_horizontal dx (move_vertical dy s))
  exact ⟨by rw [h3.1, h2.1, h1.1], by rw [h3.2.2.2.1, h2.2.1, h1.2.1],
         by rw [h3.2.2.2.2.1, h2.2.2.2.2.1, h1.2.2.2.2.1],
         by rw [h3.2.2.2.2.2, h2.2.2.2.2.2, h1.2.2.2.2.2]⟩

theorem insert_text_fields (t : Line) (s : State) :
    (insert_text t s).content.length = s.content.length ∧
    (insert_text t s).cursor_y = s.cursor_y ∧
    (insert_text t s).scroll_y = s.scroll_y ∧
    (insert_text t s).scroll_x = s.scroll_x ∧
    (insert_text t s).selection_start = s.selection_start ∧
    (insert_text t s).height = s.height ∧
    (insert_text t s).width = s.width := by
  simp [insert_text]

theorem paste_text_fields (p : Line) (s : State) :
    (paste_text p s).selection_start = s.selection_start ∧
    (paste_text p s).scroll_y = s.scroll_y ∧
    (paste_text p s).scroll_x = s.scroll_x ∧
    (paste_text p s).height = s.height ∧
    (paste_text p s).width = s.width := by
  unfold paste_text
  by_cases h1 : p = [] <;> by_cases h2 : (splitNL p).length = 1 <;>
    simp [h1, h2, set_message, insert_text]

theorem load_file_fields (fname : String) (r : FileRead) (s : State) :
    (load_file fname r s).cursor_y = s.cursor_y ∧
    (load_file fname r s).cursor_x = s.cursor_x ∧
    (load_file fname r s).scroll_y = s.scroll_y ∧
    (load_file fname r s).scroll_x = s.scroll_x ∧
    (load_file fname r s).selection_start = s.selection_start := by
  cases r <;> simp [load_file, set_message]

theorem save_file_fst_fields (ov : String) (ok : Bool) (err : String) (s : State) :
    ((save_file ov ok err s).1).content = s.content ∧
    ((save_file ov ok err s).1).cursor_y = s.cursor_y ∧
    ((save_file ov ok err s).1).cursor_x = s.cursor_x ∧
    ((save_file ov ok err s).1).scroll_y = s.scroll_y ∧
    ((save_file ov ok err s).1).scroll_x = s.scroll_x ∧
    ((save_file ov ok err s).1).selection_start = s.selection_start := by
  unfold save_file
  dsimp only
  split_ifs <;> simp [set_message]

/-! ### The document is never empty -/

theorem set_ne_nil {l : List α} (h : l ≠ []) (i : Nat) (v : α) : l.set i v ≠ [] := by
  cases l with
  | nil => exact absurd rfl h
  | cons a t => cases i <;> simp

theorem eraseIdx_pos_ne_nil {l : List α} (h : l ≠ []) {i : Nat} (hi : 0 < i) :
    l.eraseIdx i ≠ [] := by
  cases l with
  | nil => exact absurd rfl h
  | cons a t =>
    cases i with
    | zero => omega
    | succ j => simp [List.eraseIdx]

theorem paste_text_content_ne (p : Line) (s : State) (h : s.content ≠ []) :
    (paste_text p s).content ≠ [] := by
  unfold paste_text
  by_cases h1 : p = [] <;> by_cases h2 : (splitNL p).length = 1 <;>
    simp [h1, h2, set_message, insert_text, pyInsert, h, set_ne_nil h]

/-- No single input event can empty the document. -/
theorem handle_input_content_ne (k : Key) (s : State) (h : s.content ≠ []) :
    (handle_input k s).content ≠ [] := by
  cases k with
  | resize hh ww => simpa [handle_input] using h
  | up => rw [handle_input, (move_cursor_fields _ _ _).1]; exact h
  | down => rw [handle_input, (move_cursor_fields _ _ _).1]; exact h
  | left => rw [handle_input, (move_cursor_fields _ _ _).1]; exact h
  | right => rw [handle_input, (move_cursor_fields _ _ _).1]; exact h
  | pageUp => rw [handle_input, (move_cursor_fields _ _ _).1]; exact h
  | pageDown => rw [handle_input, (move_cursor_fields _ _ _).1]; exact h
  | home => simpa [handle_input] using h
  | endKey => simpa [handle_input] using h
  | enter => simp [handle_input, pyInsert]
  | tab => simp [handle_input, insert_text, set_ne_nil h]
  | backspace =>
    rw [handle_input]
    split_ifs with h1 h2
    · simp [set_ne_nil h]
    · exact eraseIdx_pos_ne_nil (set_ne_nil h _ _) h2
    · exact h
  | delete =>
    rw [handle_input]
    split_ifs with h1 h2
    · simp [set_ne_nil h]
    · exact eraseIdx_pos_ne_nil (set_ne_nil h _ _) (Nat.succ_pos _)
    · exact h
  | shiftUp =>
    rw [handle_input]
    split_ifs <;> (rw [(move_cursor_fields _ _ _).1]; exact h)
  | shiftDown =>
    rw [handle_input]
    split_ifs <;> (rw [(move_cursor_fields _ _ _).1]; exact h)
  | ctrlS ok err => rw [handle_input, (save_file_fst_fields _ _ _ _).1]; exact h
  | ctrlO fname r =>
    rw [handle_input]
    split_ifs with h1
    · cases r with
      | ok ls =>
        by_cases hls : ls = [] <;> simp [load_file, hls]
      | missing => simp [load_file, set_message]
      | failed e => simp [load_file, set_message]
    · exact h
  | ctrlN => simp [handle_input, new_file, set_message]
  | ctrlC ok err => rw [handle_input, (copy_text_fst_fields _ _ _).1]; exact h
  | ctrlV p => exact paste_text_content_ne p s h
  | escape => simpa [handle_input] using h
  | printable c => simp [handle_input, insert_text, set_ne_nil h]
  | other => simpa [handle_input] using h

theorem foldl_content_ne (ks : List Key) :
    ∀ s : State, s.content ≠ [] →
      (ks.foldl (fun t k => handle_input k t) s).content ≠ [] := by
  induction ks with
  | nil => intro s hs; simpa using hs
  | cons k ks ih =>
    intro s hs
    simpa [List.foldl_cons] using ih _ (handle_input_content_ne k s hs)

/-! ### Viewport bounds -/

theorem update_scroll_bounds (s : State) (hh : 3 ≤ s.height) (hw : 3 ≤ s.width) :
    (update_scroll s).scroll_y ≤ s.cursor_y ∧
    s.cursor_y - (update_scroll s).scroll_y < s.height - 2 ∧
    (update_scroll s).scroll_x ≤ s.cursor_x ∧
    s.cursor_x - (update_scroll s).scroll_x < s.width - 2 := by
  unfold update_scroll
  dsimp only
  split_ifs <;> refine ⟨?_, ?_, ?_, ?_⟩ <;> omega

theorem update_scroll_noop (s : State) (hh : 3 ≤ s.height) (hw : 3 ≤ s.width)
    (h1 : s.scroll_y ≤ s.cursor_y) (h2 : s.cursor_y < s.scroll_y + (s.height - 2))
    (h3 : s.scroll_x ≤ s.cursor_x) (h4 : s.cursor_x < s.scroll_x + (s.width - 2)) :
    update_scroll s = s := by
  unfold update_scroll
  have e1 : ¬((s.cursor_y : Int) < s.scroll_y) := by omega
  have e2 : ¬((s.scroll_y : Int) + s.height - 2 ≤ s.cursor_y) := by omega
  have e3 : ¬((s.cursor_x : Int) < s.scroll_x) := by omega
  have e4 : ¬((s.scroll_x : Int) + s.width - 2 ≤ s.cursor_x) := by omega
  simp only [if_neg e1, if_neg e2, if_neg e3, if_neg e4]

/-! ### Claim theorems -/

/-- C1: pasting a payload that splits into more than one part replaces
the cursor row by its prefix glued to the first part, lays out the
middle parts as new rows below in order, ends with the last part glued
to the rest of the cursor row, leaves every other row in place, and puts
the cursor at `(row + parts.length - 1, parts.last.length)`. -/
theorem paste_multiline_reflow (s : State) (p p0 plast : Line) (mid : List Line)
    (hy : s.cursor_y < s.content.length)
    (_hx : s.cursor_x ≤ (s.content.getD s.cursor_y []).length)
    (hp : splitNL p = p0 :: (mid ++ [plast])) :
    (paste_text p s).content =
      s.content.take s.cursor_y
        ++ (((s.content.getD s.cursor_y []).take s.cursor_x ++ p0)
              :: (mid ++ [plast ++ (s.content.getD s.cursor_y []).drop s.cursor_x]))
        ++ s.content.drop (s.cursor_y + 1) ∧
    (paste_text p s).cursor_y = s.cursor_y + (mid.length + 2) - 1 ∧
    (paste_text p s).cursor_x = plast.length := by
  have h := paste_text_content_eq s p p0 plast mid hy hp
  exact ⟨h.1, by rw [h.2.1]; omega, h.2.2⟩

/-- Witness for C1: the spec scenario, pasting `"X\nY"` into `["ab"]` at
`(0,1)`, which yields `["aX","Yb"]` with the cursor at `(1,1)`. -/
theorem paste_multiline_reflow_witness :
    ((0 : Nat) < 1 ∧ (1 : Nat) ≤ 2 ∧
      splitNL ['X', '\n', 'Y'] = ['X'] :: ([] ++ [['Y']])) ∧
    ((paste_text ['X', '\n', 'Y'] (mkState [['a', 'b']] 0 1)).content
        = [['a', 'X'], ['Y', 'b']] ∧
      (paste_text ['X', '\n', 'Y'] (mkState [['a', 'b']] 0 1)).cursor_y = 1 ∧
      (paste_text ['X', '\n', 'Y'] (mkState [['a', 'b']] 0 1)).cursor_x = 1) := by
  refine ⟨⟨by decide, by decide, by decide⟩, ?_⟩
  have h := paste_multiline_reflow (mkState [['a', 'b']] 0 1) ['X', '\n', 'Y']
    ['X'] ['Y'] [] (by decide) (by decide) (by decide)
  exact ⟨h.1.trans (by decide), h.2.1.trans (by decide), h.2.2.trans (by decide)⟩

/-- C2: starting from any state whose document is nonempty, no sequence
of input events can empty it; moreover backspace at the origin and
delete at the end of the last line are no-ops. -/
theorem document_never_empty (s : State) (hs : s.content ≠ []) :
    (∀ ks : List Key, (ks.foldl (fun t k => handle_input k t) s).content ≠ []) ∧
    (s.cursor_y = 0 → s.cursor_x = 0 → handle_input .backspace s = s) ∧
    (s.cursor_y = s.content.length - 1 →
      s.cursor_x = (s.content.getD s.cursor_y []).length →
      handle_input .delete s = s) := by
  refine ⟨fun ks => foldl_content_ne ks s hs, ?_, ?_⟩
  · intro h0 hx
    simp [handle_input, h0, hx]
  · intro hy hx
    simp [handle_input, hx, hy]

/-- Witness for C2 at the one-line document `["ab"]` with the cursor at
the origin. -/
theorem document_never_empty_witness :
    (mkState [['a', 'b']] 0 0).content ≠ [] ∧
    ((∀ ks : List Key,
        (ks.foldl (fun t k => handle_input k t) (mkState [['a', 'b']] 0 0)).content ≠ []) ∧
      ((mkState [['a', 'b']] 0 0).cursor_y = 0 → (mkState [['a', 'b']] 0 0).cursor_x = 0 →
        handle_input .backspace (mkState [['a', 'b']] 0 0) = mkState [['a', 'b']] 0 0) ∧
      ((mkState [['a', 'b']] 0 0).cursor_y = (mkState [['a', 'b']] 0 0).content.length - 1 →
        (mkState [['a', 'b']] 0 0).cursor_x
            = ((mkState [['a', 'b']] 0 0).content.getD (mkState [['a', 'b']] 0 0).cursor_y []).length →
        handle_input .delete (mkState [['a', 'b']] 0 0) = mkState [['a', 'b']] 0 0)) :=
  ⟨by decide, document_never_empty (mkState [['a', 'b']] 0 0) (by decide)⟩

/-- C3 (code bug): opening a file via Ctrl+O replaces the document but
does not reset the cursor: from `["aa","bb"]` with cursor `(1,1)`,
loading a one-line file leaves the cursor at `(1,1)`, which is outside
the bounds of the new document, where the claim (and spec section 3)
require the origin `(0,0)`. -/
theorem load_file_keeps_stale_cursor :
    (handle_input (.ctrlO "notes.txt" (.ok [['x']]))
        (mkState [['a', 'a'], ['b', 'b']] 1 1)).content = [['x']] ∧
    (handle_input (.ctrlO "notes.txt" (.ok [['x']]))
        (mkState [['a', 'a'], ['b', 'b']] 1 1)).cursor_y = 1 ∧
    (handle_input (.ctrlO "notes.txt" (.ok [['x']]))
        (mkState [['a', 'a'], ['b', 'b']] 1 1)).cursor_x = 1 ∧
    ¬((handle_input (.ctrlO "notes.txt" (.ok [['x']]))
        (mkState [['a', 'a'], ['b', 'b']] 1 1)).cursor_y
      < (handle_input (.ctrlO "notes.txt" (.ok [['x']]))
            (mkState [['a', 'a'], ['b', 'b']] 1 1)).content.length) := by
  decide

/-- C4 counterexample: with an active anchor at `(0,0)` and the cursor at
`(0,1)`, a plain left-arrow move (a non-extending input) does not clear
the anchor, contrary to the claim. -/
theorem plain_move_keeps_anchor_cex :
    (handle_input .left
        { mkState [['a', 'b']] 0 1 with selection_start := some (0, 0) }).selection_start
      = some (0, 0) ∧
    (some (0, 0) : Option (Nat × Nat)) ≠ none := by
  decide

/-- C4 (amended): the anchor is cleared only by the explicit cancel input
(Escape); a selection-extend input from a selection-less state sets the
anchor to the pre-move cursor position; every other input leaves the
anchor exactly as it was. -/
theorem anchor_transition_policy (s : State) (k : Key) :
    (cancelKey k = true → (handle_input k s).selection_start = none) ∧
    (extendKey k = true → s.selection_start = none →
      (handle_input k s).selection_start = some (s.cursor_y, s.cursor_x)) ∧
    (extendKey k = true → s.selection_start ≠ none →
      (handle_input k s).selection_start = s.selection_start) ∧
    (cancelKey k = false → extendKey k = false →
      (handle_input k s).selection_start = s.selection_start) := by
  refine ⟨?_, ?_, ?_, ?_⟩
  · intro hc
    cases k <;> simp [cancelKey] at hc <;> simp [handle_input]
  · intro he hn
    cases k <;> simp [extendKey] at he <;>
      simp [handle_input, hn, move_cursor_fields]
  · intro he hn
    cases k <;> simp [extendKey] at he <;>
      simp [handle_input, hn, move_cursor_fields]
  · intro hc he
    cases k <;> simp [cancelKey] at hc <;> simp [extendKey] at he <;>
      simp [handle_input, move_cursor_fields, save_file_fst_fields,
            copy_text_fst_fields, paste_text_fields, load_file_fields,
            insert_text_fields, new_file, set_message] <;>
      (try (split_ifs <;> simp [load_file_fields, set_message]))

/-- Witness for C4: Escape clears the anchor, Shift+Down captures the
pre-move cursor as anchor, and a plain right-arrow move keeps the
anchor. -/
theorem anchor_transition_policy_witness :
    (handle_input .escape
        { mkState [['a', 'b']] 0 1 with selection_start := some (0, 0) }).selection_start
      = none ∧
    (handle_input .shiftDown (mkState [['a', 'b']] 0 1)).selection_start = some (0, 1) ∧
    (handle_input .right
        { mkState [['a', 'b']] 0 1 with selection_start := some (0, 0) }).selection_start
      = some (0, 0) :=
  ⟨(anchor_transition_policy
      { mkState [['a', 'b']] 0 1 with selection_start := some (0, 0) } .escape).1 rfl,
   (anchor_transition_policy (mkState [['a', 'b']] 0 1) .shiftDown).2.1 rfl rfl,
   ((anchor_transition_policy
      { mkState [['a', 'b']] 0 1 with selection_start := some (0, 0) } .right).2.2.2
      rfl rfl).trans (by decide)⟩

/-- C5 (code bug): on the document `["a","bb","ccc"]` with the cursor at
`(2,0)`, the backspace-join of the textual prototype sets the column
from `lines[cursor_col]` (the first line) and lands at `(1,1)`, while
the curses engine (and the claim) set it to the pre-join length of the
previous line, landing at `(1,2)`; both produce `["a","bbccc"]`. -/
theorem backspace_join_column_bug :
    textualDeleteCharacter [['a'], ['b', 'b'], ['c', 'c', 'c']] 2 0
      = ([['a'], ['b', 'b', 'c', 'c', 'c']], 1, 1) ∧
    (handle_input .backspace (mkState [['a'], ['b', 'b'], ['c', 'c', 'c']] 2 0)).content
      = [['a'], ['b', 'b', 'c', 'c', 'c']] ∧
    (handle_input .backspace (mkState [['a'], ['b', 'b'], ['c', 'c', 'c']] 2 0)).cursor_y = 1 ∧
    (handle_input .backspace (mkState [['a'], ['b', 'b'], ['c', 'c', 'c']] 2 0)).cursor_x = 2 ∧
    (1 : Nat) ≠ 2 := by
  decide

/-- C9: a save writes exactly the lines joined with newlines, never
changes the in-memory document, reports a missing path as the distinct
`No filename specified` condition without writing, and reports a failed
write as status text. -/
theorem save_file_reports_and_preserves (s : State) (ov : String) (ok : Bool) (err : String) :
    ((save_file ov ok err s).1).content = s.content ∧
    (∀ pc : String × Line, (save_file ov ok err s).2 = some pc → pc.2 = joinNL s.content) ∧
    (ov = "" → s.filename = "" →
      (save_file ov ok err s).2 = none ∧
      ((save_file ov ok err s).1).message = "No filename specified") ∧
    (ok = false → (save_file ov ok err s).2 ≠ none →
      ((save_file ov ok err s).1).message = "Error saving file: " ++ err) := by
  unfold save_file
  dsimp only
  by_cases hov : ov ≠ "" <;> cases ok <;> simp [hov, set_message] <;>
    split_ifs <;> simp_all [set_message]

/-- Witness for C9: a failed write to a known path leaves the document
as it was and reports the error; a save with no path at all reports
`No filename specified` and writes nothing. -/
theorem save_file_reports_and_preserves_witness :
    (((save_file "" false "disk full" { mkState [['h', 'i']] 0 0 with filename := "f.txt" }).1).content
        = [['h', 'i']] ∧
      ((save_file "" false "disk full" { mkState [['h', 'i']] 0 0 with filename := "f.txt" }).1).message
        = "Error saving file: " ++ "disk full") ∧
    ((save_file "" true "" (mkState [['h', 'i']] 0 0)).2 = none ∧
      ((save_file "" true "" (mkState [['h', 'i']] 0 0)).1).message = "No filename specified") :=
  ⟨⟨(save_file_reports_and_preserves
        { mkState [['h', 'i']] 0 0 with filename := "f.txt" } "" false "disk full").1.trans rfl,
    (save_file_reports_and_preserves
        { mkState [['h', 'i']] 0 0 with filename := "f.txt" } "" false "disk full").2.2.2
      rfl (by decide)⟩,
   (save_file_reports_and_preserves (mkState [['h', 'i']] 0 0) "" true "").2.2.1 rfl rfl⟩

/-- C10: copy is read-only on the engine: it leaves the document lines,
the cursor, the scroll offsets and the selection anchor unchanged, so in
particular the selection remains active after a copy. -/
theorem copy_is_readonly (ok : Bool) (err : String) (s : State) :
    ((copy_text ok err s).1).content = s.content ∧
    ((copy_text ok err s).1).cursor_y = s.cursor_y ∧
    ((copy_text ok err s).1).cursor_x = s.cursor_x ∧
    ((copy_text ok err s).1).scroll_y = s.scroll_y ∧
    ((copy_text ok err s).1).scroll_x = s.scroll_x ∧
    ((copy_text ok err s).1).selection_start = s.selection_start :=
  copy_text_fst_fields ok err s

/-- C8: after any cursor move, the recomputed scroll keeps the screen
projection of the cursor inside `[0, height - 2) x [0, width - 2)`, and
when the cursor is already inside the visible window the recomputation
leaves the scroll offsets unchanged. -/
theorem cursor_visible_after_move (s : State) (dy dx : Int)
    (hh : 3 ≤ s.height) (hw : 3 ≤ s.width) :
    ((move_cursor dy dx s).scroll_y ≤ (move_cursor dy dx s).cursor_y ∧
      (move_cursor dy dx s).cursor_y - (move_cursor dy dx s).scroll_y < s.height - 2 ∧
      (move_cursor dy dx s).scroll_x ≤ (move_cursor dy dx s).cursor_x ∧
      (move_cursor dy dx s).cursor_x - (move_cursor dy dx s).scroll_x < s.width - 2) ∧
    (s.scroll_y ≤ s.cursor_y → s.cursor_y < s.scroll_y + (s.height - 2) →
      s.scroll_x ≤ s.cursor_x → s.cursor_x < s.scroll_x + (s.width - 2) →
      update_scroll s = s) := by
  constructor
  · have hth : (move_horizontal dx (move_vertical dy s)).height = s.height := by
      rw [(move_horizontal_fields _ _).2.2.2.2.1, (move_vertical_fields _ _).2.2.2.2.1]
    have htw : (move_horizontal dx (move_vertical dy s)).width = s.width := by
      rw [(move_horizontal_fields _ _).2.2.2.2.2, (move_vertical_fields _ _).2.2.2.2.2]
    have hb := update_scroll_bounds (move_horizontal dx (move_vertical dy s))
      (by rw [hth]; exact hh) (by rw [htw]; exact hw)
    rw [hth, htw] at hb
    have hcy := (update_scroll_fields (move_horizontal dx (move_vertical dy s))).2.1
    have hcx := (update_scroll_fields (move_horizontal dx (move_vertical dy s))).2.2.1
    rw [move_cursor, hcy, hcx]
    exact hb
  · exact update_scroll_noop s hh hw

/-- Witness for C8: a downward move on a two-line document in a 24x80
frame, where the cursor stays visible and the scroll stays at the
origin. -/
theorem cursor_visible_after_move_witness :
    ((3 : Nat) ≤ (mkState [['a'], ['b']] 0 0).height ∧
      (3 : Nat) ≤ (mkState [['a'], ['b']] 0 0).width) ∧
    (((move_cursor 1 0 (mkState [['a'], ['b']] 0 0)).scroll_y
          ≤ (move_cursor 1 0 (mkState [['a'], ['b']] 0 0)).cursor_y ∧
      (move_cursor 1 0 (mkState [['a'], ['b']] 0 0)).cursor_y
          - (move_cursor 1 0 (mkState [['a'], ['b']] 0 0)).scroll_y
          < (mkState [['a'], ['b']] 0 0).height - 2 ∧
      (move_cursor 1 0 (mkState [['a'], ['b']] 0 0)).scroll_x
          ≤ (move_cursor 1 0 (mkState [['a'], ['b']] 0 0)).cursor_x ∧
      (move_cursor 1 0 (mkState [['a'], ['b']] 0 0)).cursor_x
          - (move_cursor 1 0 (mkState [['a'], ['b']] 0 0)).scroll_x
          < (mkState [['a'], ['b']] 0 0).width - 2) ∧
    ((mkState [['a'], ['b']] 0 0).scroll_y ≤ (mkState [['a'], ['b']] 0 0).cursor_y →
      (mkState [['a'], ['b']] 0 0).cursor_y
          < (mkState [['a'], ['b']] 0 0).scroll_y + ((mkState [['a'], ['b']] 0 0).height - 2) →
      (mkState [['a'], ['b']] 0 0).scroll_x ≤ (mkState [['a'], ['b']] 0 0).cursor_x →
      (mkState [['a'], ['b']] 0 0).cursor_x
          < (mkState [['a'], ['b']] 0 0).scroll_x + ((mkState [['a'], ['b']] 0 0).width - 2) →
      update_scroll (mkState [['a'], ['b']] 0 0) = mkState [['a'], ['b']] 0 0)) :=
  ⟨⟨by decide, by decide⟩,
   cursor_visible_after_move (mkState [['a'], ['b']] 0 0) 1 0 (by decide) (by decide)⟩

/-! ### The copy payload -/

theorem range_map_take (c : List Line) (ex : Nat) (n : Nat) :
    ∀ a : Nat, a + n < c.length →
      (List.range' a (n + 1)).map
          (fun y => if y = a + n then (c.getD y []).take ex else c.getD y [])
        = (c.drop a).take n ++ [(c.getD (a + n) []).take ex] := by
  induction n with
  | zero =>
    intro a ha
    simp
  | succ m ih =>
    intro a ha
    have hsplit : List.range' a (m + 1 + 1) = a :: List.range' (a + 1) (m + 1) := by
      rw [List.range'_succ]
    rw [hsplit, List.map_cons]
    have hane : ¬(a = a + (m + 1)) := by omega
    rw [if_neg hane]
    have hst : a + (m + 1) = (a + 1) + m := by omega
    rw [hst]
    rw [ih (a + 1) (by omega)]
    have hlt : a < c.length := by omega
    rw [List.drop_eq_getElem_cons hlt, List.getD_eq_getElem c [] hlt, List.take_succ_cons]
    simp only [List.cons_append]

theorem selected_rows_eq (c : List Line) (sy sx ey ex : Nat)
    (hse : sy ≤ ey) (hey : ey < c.length) :
    joinNL ((List.range' sy (ey + 1 - sy)).map (fun y =>
      let line := c.getD y []
      if sy = ey then (line.take ex).drop sx
      else if y = sy then line.drop sx
      else if y = ey then line.take ex
      else line)) = specCopy c sy sx ey ex := by
  by_cases h : sy = ey
  · subst h
    have h1 : sy + 1 - sy = 1 := by omega
    rw [h1]
    simp [specCopy, joinNL]
  · have hlt : sy < ey := lt_of_le_of_ne hse h
    have hk : ey + 1 - sy = (ey - sy - 1 + 1) + 1 := by omega
    rw [hk]
    rw [show List.range' sy (ey - sy - 1 + 1 + 1) = sy :: List.range' (sy + 1) (ey - sy - 1 + 1)
          from List.range'_succ sy (ey - sy - 1 + 1) 1]
    rw [List.map_cons]
    dsimp only
    rw [if_neg h, if_pos rfl]
    have hcong : (List.range' (sy + 1) (ey - sy - 1 + 1)).map (fun y =>
        let line := c.getD y []
        if sy = ey then (line.take ex).drop sx
        else if y = sy then line.drop sx
        else if y = ey then line.take ex
        else line)
        = (List.range' (sy + 1) (ey - sy - 1 + 1)).map
            (fun y => if y = (sy + 1) + (ey - sy - 1) then (c.getD y []).take ex
                      else c.getD y []) := by
      refine List.map_congr_left ?_
      intro y hy
      have hymem := List.mem_range'_1.mp hy
      have hysy : ¬(y = sy) := by omega
      have heq : (sy + 1) + (ey - sy - 1) = ey := by omega
      dsimp only
      rw [if_neg h, if_neg hysy, heq]
    rw [hcong, range_map_take c ex (ey - sy - 1) (sy + 1) (by omega)]
    have heq : (sy + 1) + (ey - sy - 1) = ey := by omega
    rw [heq]
    rw [specCopy, if_neg h]
    rw [show [List.drop sx (c.getD sy [])]
          ++ List.take (ey - sy - 1) (List.drop (sy + 1) c)
          ++ [List.take ex (c.getD ey [])]
        = List.drop sx (c.getD sy [])
            :: (List.take (ey - sy - 1) (List.drop (sy + 1) c)
                  ++ [List.take ex (c.getD ey [])]) by simp]

theorem get_selected_text_spec (s : State) (ay ax sy sx ey ex : Nat)
    (ha : s.selection_start = some (ay, ax))
    (hn : (if s.cursor_y < ay ∨ (ay = s.cursor_y ∧ s.cursor_x < ax) then
              (s.cursor_y, s.cursor_x, ay, ax)
            else (ay, ax, s.cursor_y, s.cursor_x)) = (sy, sx, ey, ex))
    (hey : ey < s.content.length) :
    get_selected_text s = specCopy s.content sy sx ey ex := by
  unfold get_selected_text
  rw [ha]
  by_cases hcond : s.cursor_y < ay ∨ (ay = s.cursor_y ∧ s.cursor_x < ax)
  · rw [if_pos hcond] at hn
    cases hn
    dsimp only
    rw [if_pos hcond]
    have hse : s.cursor_y ≤ ay := by
      rcases hcond with hx | ⟨hx, _⟩ <;> omega
    exact selected_rows_eq s.content _ _ _ _ hse hey
  · rw [if_neg hcond] at hn
    cases hn
    dsimp only
    rw [if_neg hcond]
    have hse : ay ≤ s.cursor_y := by
      by_contra hx
      exact hcond (Or.inl (by omega))
    exact selected_rows_eq s.content _ _ _ _ hse hey

theorem get_selected_text_none (s : State) (hs : s.selection_start = none) :
    get_selected_text s = [] := by
  unfold get_selected_text
  rw [hs]

/-- C7: the copy payload of a normalized span is exactly the spec's
extraction — the single-row substring, or head tail slice, middle lines
verbatim and final head slice joined with newlines — independent of the
direction the selection was made in, and with no active selection the
payload is empty and copy changes nothing. -/
theorem copy_payload_matches_spec :
    (∀ (s : State) (ay ax sy sx ey ex : Nat),
      s.selection_start = some (ay, ax) →
      (if s.cursor_y < ay ∨ (ay = s.cursor_y ∧ s.cursor_x < ax) then
          (s.cursor_y, s.cursor_x, ay, ax)
        else (ay, ax, s.cursor_y, s.cursor_x)) = (sy, sx, ey, ex) →
      ey < s.content.length →
      get_selected_text s = specCopy s.content sy sx ey ex) ∧
    (∀ (s : State) (ok : Bool) (err : String), s.selection_start = none →
      get_selected_text s = [] ∧ copy_text ok err s = (s, none)) := by
  constructor
  · exact fun s ay ax sy sx ey ex ha hn hey =>
      get_selected_text_spec s ay ax sy sx ey ex ha hn hey
  · intro s ok err hs
    have hget := get_selected_text_none s hs
    refine ⟨hget, ?_⟩
    unfold copy_text
    rw [hget]
    simp

/-- Witness for C7: the spec scenario, copying the span from `(0,2)` to
`(1,2)` in `["line1","line2"]`, whose payload is `"ne1\nli"`; and a
copy with no selection, which yields nothing and leaves the state
untouched. -/
theorem copy_payload_matches_spec_witness :
    get_selected_text
        { mkState [['l', 'i', 'n', 'e', '1'], ['l', 'i', 'n', 'e', '2']] 1 2 with
            selection_start := some (0, 2) }
      = specCopy
          ({ mkState [['l', 'i', 'n', 'e', '1'], ['l', 'i', 'n', 'e', '2']] 1 2 with
              selection_start := some (0, 2) } : State).content 0 2 1 2 ∧
    get_selected_text
        { mkState [['l', 'i', 'n', 'e', '1'], ['l', 'i', 'n', 'e', '2']] 1 2 with
            selection_start := some (0, 2) }
      = ['n', 'e', '1', '\n', 'l', 'i'] ∧
    get_selected_text (mkState [['a']] 0 0) = [] ∧
    copy_text true "boom" (mkState [['a']] 0 0) = (mkState [['a']] 0 0, none) := by
  refine ⟨?_, by decide, ?_, ?_⟩
  · exact copy_payload_matches_spec.1 _ 0 2 0 2 1 2 (by decide) (by decide) (by decide)
  · exact (copy_payload_matches_spec.2 (mkState [['a']] 0 0) true "boom" rfl).1
  · exact (copy_payload_matches_spec.2 (mkState [['a']] 0 0) true "boom" rfl).2

/-! ### Flattened-document view of paste and selection -/

theorem joinNL_splitAtPos (c : List Line) :
    ∀ (y x : Nat), y < c.length →
      joinNL c = (splitAtPos c y x).1 ++ (splitAtPos c y x).2 := by
  induction c with
  | nil => intro y x h; simp at h
  | cons l ls ih =>
    intro y x h
    cases y with
    | zero =>
      cases ls with
      | nil => simp [splitAtPos, joinNL]
      | cons m ms =>
        simp only [splitAtPos, joinNL]
        rw [← List.append_assoc, List.take_append_drop]
    | succ y' =>
      have h' : y' < ls.length := by simpa using h
      cases ls with
      | nil => simp at h'
      | cons m ms =>
        simp only [splitAtPos, joinNL]
        rw [ih y' x h']
        simp [List.append_assoc]

theorem joinNL_set_insert (c : List Line) :
    ∀ (y x : Nat) (t : Line), y < c.length →
      joinNL (c.set y ((c.getD y []).take x ++ t ++ (c.getD y []).drop x))
        = (splitAtPos c y x).1 ++ t ++ (splitAtPos c y x).2 := by
  induction c with
  | nil => intro y x t h; simp at h
  | cons l ls ih =>
    intro y x t h
    cases y with
    | zero =>
      cases ls with
      | nil => simp [splitAtPos, joinNL, List.append_assoc]
      | cons m ms =>
        simp only [List.set_cons_zero, List.getD_cons_zero, splitAtPos, joinNL]
        simp [List.append_assoc]
    | succ y' =>
      have h' : y' < ls.length := by simpa using h
      cases ls with
      | nil => simp at h'
      | cons m ms =>
        simp only [List.set_cons_succ, List.getD_cons_succ, splitAtPos]
        rw [joinNL_cons_ne _ _ (set_ne_nil (List.cons_ne_nil m ms) _ _)]
        rw [ih y' x t h']
        simp [List.append_assoc]

theorem joinNL_concat_glue (mid : List Line) (plast t : Line) (ls : List Line) :
    joinNL (mid ++ (plast ++ t) :: ls)
      = joinNL (mid ++ [plast]) ++ t
          ++ (match ls with | [] => [] | _ :: _ => '\n' :: joinNL ls) := by
  induction mid with
  | nil =>
    cases ls with
    | nil => simp [joinNL]
    | cons a as =>
      simp only [List.nil_append]
      rw [joinNL_cons_ne _ _ (List.cons_ne_nil a as)]
      simp [joinNL, List.append_assoc]
  | cons m ms ih =>
    rw [List.cons_append]
    rw [joinNL_cons_ne _ _ (by simp),
        show (m :: ms) ++ [plast] = m :: (ms ++ [plast]) from rfl,
        joinNL_cons_ne _ _ (by simp)]
    rw [ih]
    simp [List.append_assoc]

theorem joinNL_paste_norm (c : List Line) :
    ∀ (y x : Nat) (p0 plast : Line) (mid : List Line), y < c.length →
      joinNL (c.take y
          ++ (((c.getD y []).take x ++ p0)
                :: (mid ++ [plast ++ (c.getD y []).drop x]))
          ++ c.drop (y + 1))
        = (splitAtPos c y x).1 ++ (p0 ++ '\n' :: joinNL (mid ++ [plast]))
            ++ (splitAtPos c y x).2 := by
  induction c with
  | nil => intro y x p0 plast mid h; simp at h
  | cons l ls ih =>
    intro y x p0 plast mid h
    cases y with
    | zero =>
      simp only [List.take_zero, List.nil_append, List.drop_succ_cons, List.drop_zero,
        List.getD_cons_zero, splitAtPos, List.cons_append]
      rw [joinNL_cons_ne _ _ (by simp)]
      rw [show (mid ++ [plast ++ (l.drop x)]) ++ ls = mid ++ (plast ++ (l.drop x)) :: ls by simp]
      rw [joinNL_concat_glue]
      simp [List.append_assoc]
    | succ y' =>
      have h' : y' < ls.length := by simpa using h
      cases ls with
      | nil => simp at h'
      | cons m ms =>
        simp only [List.take_succ_cons, List.drop_succ_cons, List.getD_cons_succ, splitAtPos,
          List.cons_append]
        rw [joinNL_cons_ne _ _ (by simp)]
        have ih2 := ih y' x p0 plast mid h'
        rw [List.drop_succ_cons] at ih2
        rw [ih2]
        simp [List.append_assoc]

/-- Flattened view of `paste_text`: whatever the shape of the payload,
pasting it at a valid cursor splices it into the newline-joined document
at the character offset of the cursor. -/
theorem joinNL_paste (p : Line) (s : State) (hy : s.cursor_y < s.content.length) :
    joinNL (paste_text p s).content
      = (splitAtPos s.content s.cursor_y s.cursor_x).1 ++ p
          ++ (splitAtPos s.content s.cursor_y s.cursor_x).2 := by
  by_cases hp : p = []
  · subst hp
    have hid : paste_text [] s = s := by rw [paste_text]; simp
    rw [hid]
    simpa using joinNL_splitAtPos s.content s.cursor_y s.cursor_x hy
  · by_cases h1 : (splitNL p).length = 1
    · obtain ⟨q, hq⟩ := List.length_eq_one.mp h1
      have hqp : q = p := splitNL_singleton hq
      unfold paste_text
      rw [if_neg hp, if_pos h1, (set_message_fields _ _).1]
      exact joinNL_set_insert s.content s.cursor_y s.cursor_x p hy
    · obtain ⟨p0, rest, hrest⟩ : ∃ p0 rest, splitNL p = p0 :: rest := by
        cases hs : splitNL p with
        | nil => exact absurd hs (splitNL_ne_nil p)
        | cons a t => exact ⟨a, t, rfl⟩
      have hrne : rest ≠ [] := by
        intro hr
        rw [hrest, hr] at h1
        simp at h1
      obtain ⟨mid, plast, hmid⟩ : ∃ mid plast, rest = mid ++ [plast] := by
        rcases List.eq_nil_or_concat rest with hr | ⟨L, b, hr⟩
        · exact absurd hr hrne
        · exact ⟨L, b, by rw [hr, List.concat_eq_append]⟩
      have hsplit : splitNL p = p0 :: (mid ++ [plast]) := by rw [hrest, hmid]
      have hcontent := (paste_text_content_eq s p p0 plast mid hy hsplit).1
      rw [hcontent, joinNL_paste_norm s.content s.cursor_y s.cursor_x p0 plast mid hy]
      have hpj : p = p0 ++ '\n' :: joinNL (mid ++ [plast]) := by
        conv_lhs => rw [← joinNL_splitNL p]
        rw [hsplit, joinNL_cons_ne _ _ (by simp)]
      rw [← hpj]

theorem splitAtPos_fst_eq_joinNL (ls : List Line) :
    ∀ (e ex : Nat), e < ls.length →
      (splitAtPos ls e ex).1 = joinNL (ls.take e ++ [(ls.getD e []).take ex]) := by
  induction ls with
  | nil => intro e ex h; simp at h
  | cons a t ih =>
    intro e ex h
    cases e with
    | zero => simp [splitAtPos, joinNL]
    | succ e' =>
      have h' : e' < t.length := by simpa using h
      simp only [splitAtPos, List.take_succ_cons, List.getD_cons_succ, List.cons_append]
      rw [joinNL_cons_ne _ _ (by simp)]
      rw [ih e' ex h']

theorem specCopy_cons (l : Line) (ls : List Line) (sy sx ey ex : Nat) :
    specCopy (l :: ls) (sy + 1) sx (ey + 1) ex = specCopy ls sy sx ey ex := by
  unfold specCopy
  by_cases h : sy = ey
  · subst h
    simp
  · have h' : ¬(sy + 1 = ey + 1) := by omega
    rw [if_neg h', if_neg h]
    have harr : ey + 1 - (sy + 1) - 1 = ey - sy - 1 := by omega
    simp [harr]

theorem splitAtPos_fst_spec (c : List Line) :
    ∀ (sy sx ey ex : Nat), sy ≤ ey → ey < c.length → (sy = ey → sx ≤ ex) →
      (splitAtPos c ey ex).1 = (splitAtPos c sy sx).1 ++ specCopy c sy sx ey ex := by
  induction c with
  | nil => intro sy sx ey ex h1 h2 h3; simp at h2
  | cons l ls ih =>
    intro sy sx ey ex h1 h2 h3
    cases sy with
    | zero =>
      cases ey with
      | zero =>
        have hxx : sx ≤ ex := h3 rfl
        simp only [splitAtPos, specCopy, if_pos rfl, if_true, List.getD_cons_zero]
        rw [show l.take sx = (l.take ex).take sx by
              rw [List.take_take, Nat.min_eq_left hxx]]
        rw [List.take_append_drop]
      | succ e =>
        have he : e < ls.length := by simpa using h2
        simp only [splitAtPos, specCopy, if_neg (by omega : ¬(0 = e + 1)),
          List.getD_cons_zero, List.getD_cons_succ, List.drop_succ_cons, List.drop_zero,
          List.cons_append, List.nil_append]
        have harr : e + 1 - 0 - 1 = e := by omega
        rw [harr]
        rw [joinNL_cons_ne _ _ (by simp)]
        rw [splitAtPos_fst_eq_joinNL ls e ex he]
        rw [← List.append_assoc, List.take_append_drop]
    | succ sy' =>
      cases ey with
      | zero => omega
      | succ ey' =>
        have he : ey' < ls.length := by simpa using h2
        have h1' : sy' ≤ ey' := by omega
        have h3' : sy' = ey' → sx ≤ ex := fun hh => h3 (by omega)
        simp only [splitAtPos]
        rw [specCopy_cons]
        rw [ih sy' sx ey' ex h1' he h3']
        simp [List.append_assoc]

/-- C6: performing copy with an active selection and then immediately
pasting the resulting payload at the same cursor position yields a
document whose newline-joined content is the original content with the
selected text duplicated exactly once. -/
theorem copy_paste_roundtrip (s : State) (ay ax : Nat)
    (ha : s.selection_start = some (ay, ax))
    (hay : ay < s.content.length) (hcy : s.cursor_y < s.content.length) :
    ∃ A B : Line,
      joinNL s.content = A ++ get_selected_text s ++ B ∧
      joinNL (paste_text (get_selected_text s) ((copy_text true "" s).1)).content
        = A ++ get_selected_text s ++ get_selected_text s ++ B := by
  have hcopy := copy_text_fst_fields true "" s
  have hyc : ((copy_text true "" s).1).cursor_y < ((copy_text true "" s).1).content.length := by
    rw [hcopy.1, hcopy.2.1]
    exact hcy
  have hpaste := joinNL_paste (get_selected_text s) ((copy_text true "" s).1) hyc
  rw [hcopy.1, hcopy.2.1, hcopy.2.2.1] at hpaste
  by_cases hcond : s.cursor_y < ay ∨ (ay = s.cursor_y ∧ s.cursor_x < ax)
  · have hget : get_selected_text s
        = specCopy s.content s.cursor_y s.cursor_x ay ax :=
      get_selected_text_spec s ay ax _ _ _ _ ha (by rw [if_pos hcond]) hay
    have hse : s.cursor_y ≤ ay := by
      rcases hcond with hx | ⟨hx, _⟩ <;> omega
    have h3 : s.cursor_y = ay → s.cursor_x ≤ ax := by
      intro hyy
      rcases hcond with hx | ⟨_, hx⟩ <;> omega
    have hL2 := splitAtPos_fst_spec s.content s.cursor_y s.cursor_x ay ax hse hay h3
    have hS1c := joinNL_splitAtPos s.content s.cursor_y s.cursor_x hcy
    have hS1e := joinNL_splitAtPos s.content ay ax hay
    refine ⟨(splitAtPos s.content s.cursor_y s.cursor_x).1,
            (splitAtPos s.content ay ax).2, ?_, ?_⟩
    · rw [hget, hS1e, hL2]
    · have hB : (splitAtPos s.content s.cursor_y s.cursor_x).2
          = specCopy s.content s.cursor_y s.cursor_x ay ax
              ++ (splitAtPos s.content ay ax).2 := by
        have hh : (splitAtPos s.content s.cursor_y s.cursor_x).1
              ++ (splitAtPos s.content s.cursor_y s.cursor_x).2
            = (splitAtPos s.content s.cursor_y s.cursor_x).1
              ++ (specCopy s.content s.cursor_y s.cursor_x ay ax
                    ++ (splitAtPos s.content ay ax).2) := by
          rw [← hS1c, hS1e, hL2]
          simp [List.append_assoc]
        exact List.append_cancel_left hh
      rw [hpaste, hget, hB]
      simp [List.append_assoc]
  · have hget : get_selected_text s
        = specCopy s.content ay ax s.cursor_y s.cursor_x :=
      get_selected_text_spec s ay ax _ _ _ _ ha (by rw [if_neg hcond]) hcy
    have hse : ay ≤ s.cursor_y := by
      by_contra hx
      exact hcond (Or.inl (by omega))
    have h3 : ay = s.cursor_y → ax ≤ s.cursor_x := by
      intro hyy
      by_contra hx
      exact hcond (Or.inr ⟨hyy, by omega⟩)
    have hL2 := splitAtPos_fst_spec s.content ay ax s.cursor_y s.cursor_x hse hcy h3
    have hS1e := joinNL_splitAtPos s.content s.cursor_y s.cursor_x hcy
    refine ⟨(splitAtPos s.content ay ax).1,
            (splitAtPos s.content s.cursor_y s.cursor_x).2, ?_, ?_⟩
    · rw [hget, hS1e, hL2]
    · rw [hpaste, hget, hL2]

/-- Witness for C6: copying the span from `(0,2)` to `(1,2)` in
`["line1","line2"]` (payload `"ne1\nli"`) and pasting it back at the
cursor duplicates the selected text once. -/
theorem copy_paste_roundtrip_witness :
    ({ mkState [['l', 'i', 'n', 'e', '1'], ['l', 'i', 'n', 'e', '2']] 1 2 with
          selection_start := some (0, 2) } : State).selection_start = some (0, 2) ∧
    (0 : Nat) < ({ mkState [['l', 'i', 'n', 'e', '1'], ['l', 'i', 'n', 'e', '2']] 1 2 with
          selection_start := some (0, 2) } : State).content.length ∧
    ({ mkState [['l', 'i', 'n', 'e', '1'], ['l', 'i', 'n', 'e', '2']] 1 2 with
          selection_start := some (0, 2) } : State).cursor_y < ({ mkState [['l', 'i', 'n', 'e', '1'], ['l', 'i', 'n', 'e', '2']] 1 2 with
          selection_start := some (0, 2) } : State).content.length ∧
    (∃ A B : Line,
      joinNL ({ mkState [['l', 'i', 'n', 'e', '1'], ['l', 'i', 'n', 'e', '2']] 1 2 with
          selection_start := some (0, 2) } : State).content
        = A ++ get_selected_text { mkState [['l', 'i', 'n', 'e', '1'], ['l', 'i', 'n', 'e', '2']] 1 2 with
          selection_start := some (0, 2) } ++ B ∧
      joinNL (paste_text (get_selected_text { mkState [['l', 'i', 'n', 'e', '1'], ['l', 'i', 'n', 'e', '2']] 1 2 with
          selection_start := some (0, 2) })
          ((copy_text true "" { mkState [['l', 'i', 'n', 'e', '1'], ['l', 'i', 'n', 'e', '2']] 1 2 with
          selection_start := some (0, 2) }).1)).content
        = A ++ get_selected_text { mkState [['l', 'i', 'n', 'e', '1'], ['l', 'i', 'n', 'e', '2']] 1 2 with
          selection_start := some (0, 2) }
            ++ get_selected_text { mkState [['l', 'i', 'n', 'e', '1'], ['l', 'i', 'n', 'e', '2']] 1 2 with
          selection_start := some (0, 2) } ++ B) :=
  ⟨rfl, by decide, by decide,
   copy_paste_roundtrip _ 0 2 rfl (by decide) (by decide)⟩

end Cedit
